import Mathlib

/-!
Verification development for the pico-baremetal repository
(src/main.c, src/startup.c, src/vectors.c).

Modelling conventions:
- Machine words are `ℕ` with an explicit `% 2 ^ 32` wherever C unsigned
  32-bit overflow matters (the tick counter increment).
- Memory-mapped I/O is modelled as a list of events (`Ev.write a v`,
  `Ev.read a v`): each C volatile access appears as one event, in program
  order.
- RAM/flash is modelled word-indexed, as a function `ℕ → ℕ` from word
  address to word value; the C word pointers advance one word per step.
- The unbounded C busy-wait loops are modelled with an explicit fuel
  argument; the infinite hang of `Default_Handler` is modelled as the
  loop returning `none` (never an exit value) for every fuel.
-/

namespace PicoBaremetal

/-- Modulus of C `uint32_t` arithmetic. -/
def UINT32_MOD : ℕ := 2 ^ 32

/-! Register addresses and masks, values of the C macros in main.c. -/

def RESETS_BASE : ℕ := 0x4000C000

/-- Address of the atomic-clear alias of the reset-control register
(`RESETS_BASE + 0x3000`). -/
def RESETS_RESET_CLR_ADDR : ℕ := RESETS_BASE + 0x3000

/-- Address of the reset-done status register (`RESETS_BASE + 0x008`). -/
def RESETS_RESET_DONE_ADDR : ℕ := RESETS_BASE + 0x008

def RESET_IO_BANK0 : ℕ := 1 <<< 5

def RESET_PADS_BANK0 : ℕ := 1 <<< 8

def IO_BANK0_BASE : ℕ := 0x40014000

/-- Address of the GPIO 25 control register (`IO_BANK0_BASE + 0x0CC`). -/
def GPIO25_CTRL_ADDR : ℕ := IO_BANK0_BASE + 0x0CC

/-- Function-select value 5 = SIO (the C macro value written to GPIO25_CTRL). -/
def FUNCSEL_SIO_VALUE : ℕ := 5

def SIO_BASE : ℕ := 0xD0000000

/-- Address of the SIO output-toggle (XOR) register (`SIO_BASE + 0x01C`). -/
def GPIO_OUT_XOR_ADDR : ℕ := SIO_BASE + 0x01C

/-- Address of the SIO output-enable set register (`SIO_BASE + 0x024`). -/
def GPIO_OE_SET_ADDR : ℕ := SIO_BASE + 0x024

def SYST_CSR_ADDR : ℕ := 0xE000E010

def SYST_RVR_ADDR : ℕ := 0xE000E014

def SYST_CVR_ADDR : ℕ := 0xE000E018

def LED_PIN : ℕ := 25

def LED_MASK : ℕ := 1 <<< LED_PIN

/-- One memory-mapped I/O access: a write of `val` to `addr`, or a read of
`addr` observing `val`. -/
inductive Ev where
  | write (addr val : ℕ)
  | read (addr val : ℕ)
deriving DecidableEq, BEq

/-- Effect of a write to the SIO `GPIO_OUT_XOR` register on the output
latch: the mask is XORed into the current output bits (main.c line 116,
139). -/
def toggle_bits (out mask : ℕ) : ℕ := out ^^^ mask

/-- State touched by `SysTick_Handler`: the `tick_count` variable
(a C `uint32_t`, kept `< 2 ^ 32`) and the SIO GPIO output latch. -/
structure SioState where
  tickCount : ℕ
  gpioOut : ℕ
deriving DecidableEq

/-- Embedding of `SysTick_Handler` (main.c lines 110-118): increment
`tick_count` (32-bit wraparound), and when the new value is a multiple of
500 write `LED_MASK` to `GPIO_OUT_XOR`.  Returns the new state together
with the MMIO writes performed. -/
def SysTick_Handler (s : SioState) : SioState × List Ev :=
  let t := (s.tickCount + 1) % UINT32_MOD
  if t % 500 = 0 then
    (⟨t, toggle_bits s.gpioOut LED_MASK⟩, [Ev.write GPIO_OUT_XOR_ADDR LED_MASK])
  else
    (⟨t, s.gpioOut⟩, [])

/-- Iterate `SysTick_Handler` `n` times, accumulating the MMIO trace of
all firings in order. -/
def sysTickFires : ℕ → SioState → SioState × List Ev
  | 0, s => (s, [])
  | n + 1, s =>
    ((sysTickFires n (SysTick_Handler s).1).1,
      (SysTick_Handler s).2 ++ (sysTickFires n (SysTick_Handler s).1).2)

/-- Number of toggle writes (writes of `LED_MASK` to `GPIO_OUT_XOR`)
emitted by `n` consecutive firings of `SysTick_Handler` from state `s`. -/
def pinToggles (n : ℕ) (s : SioState) : ℕ :=
  ((sysTickFires n s).2.filter fun e => e == Ev.write GPIO_OUT_XOR_ADDR LED_MASK).length

/-! Memory model for startup.c: word-indexed memory. -/

/-- Word-addressed memory: word address to 32-bit word value. -/
abbrev Mem := ℕ → ℕ

/-- Store word `v` at word address `a`. -/
def memWrite (m : Mem) (a v : ℕ) : Mem := fun x => if x = a then v else m x

/-- Embedding of the `.data` copy loop of `Reset_Handler` (startup.c lines
44-49): `while (dst < &_data_end) *dst++ = *src++;`.  The recursion is on
the iteration count; the loop executes exactly `dataEnd - dataStart`
iterations when `dst` starts at `dataStart`. -/
def copyWords : ℕ → Mem → ℕ → ℕ → Mem
  | 0, m, _, _ => m
  | n + 1, m, src, dst => copyWords n (memWrite m dst (m src)) (src + 1) (dst + 1)

/-- The `.data` copy of `Reset_Handler`: copy `dataEnd - dataStart` words
from `dataFlash` to `dataStart`. -/
def dataCopy (m : Mem) (dataFlash dataStart dataEnd : ℕ) : Mem :=
  copyWords (dataEnd - dataStart) m dataFlash dataStart

/-- Embedding of the `.bss` zero loop of `Reset_Handler` (startup.c lines
60-64): `while (dst < &_bss_end) *dst++ = 0;`. -/
def zeroWords : ℕ → Mem → ℕ → Mem
  | 0, m, _ => m
  | n + 1, m, dst => zeroWords n (memWrite m dst 0) (dst + 1)

/-- The `.bss` zero fill of `Reset_Handler`: zero `bssEnd - bssStart`
words starting at `bssStart`. -/
def bssZero (m : Mem) (bssStart bssEnd : ℕ) : Mem :=
  zeroWords (bssEnd - bssStart) m bssStart

/-! Vector table (vectors.c). -/

/-- The handler names declared in vectors.c (each a weak alias of
`Default_Handler` unless the application defines it). -/
inductive HName where
  | reset | nmi | hardFault | svc | pendSV | sysTick
  | timerIrq0 | timerIrq1 | timerIrq2 | timerIrq3
  | pwmIrq | usbctrlIrq
  | pio0Irq0 | pio0Irq1 | pio1Irq0 | pio1Irq1
  | dmaIrq0 | dmaIrq1 | ioIrq
  | spi0Irq | spi1Irq | uart0Irq | uart1Irq
  | adcIrq | i2c0Irq | i2c1Irq | rtcIrq
deriving DecidableEq

/-- Embedding of `vector_table` (vectors.c lines 82-133): slot 0 is the
initial stack pointer value, the other slots are the link-resolved
addresses `addr` of the named handlers, with 0 in the reserved slots, in
the exact source order. -/
def vector_table (stackTop : ℕ) (addr : HName → ℕ) : List ℕ :=
  [stackTop,
   addr .reset, addr .nmi, addr .hardFault,
   0, 0, 0, 0, 0, 0, 0,
   addr .svc, 0, 0, addr .pendSV, addr .sysTick,
   addr .timerIrq0, addr .timerIrq1, addr .timerIrq2, addr .timerIrq3,
   addr .pwmIrq, addr .usbctrlIrq,
   0,
   addr .pio0Irq0, addr .pio0Irq1, addr .pio1Irq0, addr .pio1Irq1,
   addr .dmaIrq0, addr .dmaIrq1, addr .ioIrq,
   0, 0, 0, 0,
   addr .spi0Irq, addr .spi1Irq, addr .uart0Irq, addr .uart1Irq,
   addr .adcIrq, addr .i2c0Irq, addr .i2c1Irq, addr .rtcIrq]

/-- Modelled from the spec and the per-slot comments of vectors.c: the
architecture/vendor assignment of exception/interrupt number `k` to a
handler name (`none` for slots reserved / unimplemented on this core;
slot 0 is the stack pointer slot and carries no handler name). -/
def slotAssignment : ℕ → Option HName
  | 1 => some .reset
  | 2 => some .nmi
  | 3 => some .hardFault
  | 11 => some .svc
  | 14 => some .pendSV
  | 15 => some .sysTick
  | 16 => some .timerIrq0
  | 17 => some .timerIrq1
  | 18 => some .timerIrq2
  | 19 => some .timerIrq3
  | 20 => some .pwmIrq
  | 21 => some .usbctrlIrq
  | 23 => some .pio0Irq0
  | 24 => some .pio0Irq1
  | 25 => some .pio1Irq0
  | 26 => some .pio1Irq1
  | 27 => some .dmaIrq0
  | 28 => some .dmaIrq1
  | 29 => some .ioIrq
  | 34 => some .spi0Irq
  | 35 => some .spi1Irq
  | 36 => some .uart0Irq
  | 37 => some .uart1Irq
  | 38 => some .adcIrq
  | 39 => some .i2c0Irq
  | 40 => some .i2c1Irq
  | 41 => some .rtcIrq
  | _ => none

/-- Embedding of `Default_Handler` (vectors.c lines 19-21), `while(1);`:
running the loop for any amount of fuel never produces an exit value. -/
def Default_Handler : ℕ → Option Unit
  | 0 => none
  | fuel + 1 => Default_Handler fuel

/-- The link-time weak-alias override resolution of vectors.c lines
40-67: a handler name resolves to the application's override when one
exists, and to `Default_Handler` otherwise. -/
def resolveHandler (ov : HName → Option (ℕ → Option Unit)) (n : HName) :
    ℕ → Option Unit :=
  (ov n).getD Default_Handler

/-! Peripheral reset release (main.c resets_init) and init traces. -/

/-- Embedding of the busy-wait loop of `resets_init` (main.c lines
127-128): starting at poll index `i`, read `RESETS_RESET_DONE` and loop
while `(status &&& mask) != mask`.  Returns the trace of status reads and
whether the loop exited within the given fuel. -/
def pollLoop (mask : ℕ) (statuses : ℕ → ℕ) : ℕ → ℕ → List Ev × Bool
  | _, 0 => ([], false)
  | i, fuel + 1 =>
    if statuses i &&& mask = mask then
      ([Ev.read RESETS_RESET_DONE_ADDR (statuses i)], true)
    else
      (Ev.read RESETS_RESET_DONE_ADDR (statuses i) ::
        (pollLoop mask statuses (i + 1) fuel).1,
       (pollLoop mask statuses (i + 1) fuel).2)

/-- Reset release for an arbitrary block bitmask, the shape of
`resets_init` (main.c lines 121-129): one write of the mask to the
atomic-clear alias, then the busy poll of the done register.  `statuses`
gives the value the done register would return on each successive read;
the `Bool` records whether the function returned within the fuel. -/
def release_from_reset (mask : ℕ) (statuses : ℕ → ℕ) (fuel : ℕ) :
    List Ev × Bool :=
  (Ev.write RESETS_RESET_CLR_ADDR mask :: (pollLoop mask statuses 0 fuel).1,
   (pollLoop mask statuses 0 fuel).2)

/-- Embedding of `resets_init` (main.c lines 121-129): release
`IO_BANK0` and `PADS_BANK0` from reset. -/
def resets_init (statuses : ℕ → ℕ) (fuel : ℕ) : List Ev × Bool :=
  release_from_reset (RESET_IO_BANK0 ||| RESET_PADS_BANK0) statuses fuel

/-- Embedding of `gpio_init` (main.c lines 131-140): function select to
SIO, output enable, then one toggle of the LED pin. -/
def gpio_init : List Ev :=
  [Ev.write GPIO25_CTRL_ADDR FUNCSEL_SIO_VALUE,
   Ev.write GPIO_OE_SET_ADDR LED_MASK,
   Ev.write GPIO_OUT_XOR_ADDR LED_MASK]

/-- Embedding of `systick_init` (main.c lines 142-157): with the
hard-wired `ticks_per_ms = 6000`, write the reload value, clear the
current-count register, then set CLKSOURCE | TICKINT | ENABLE. -/
def systick_init : List Ev :=
  [Ev.write SYST_RVR_ADDR (6000 - 1),
   Ev.write SYST_CVR_ADDR 0,
   Ev.write SYST_CSR_ADDR ((1 <<< 2) ||| (1 <<< 1) ||| (1 <<< 0))]

/-- Modelled from the spec: timer setup whose reload value is derived
from an injectable core clock frequency divided by the desired tick rate
(spec 4.4: reload computed from the active core clock frequency divided
by the desired tick rate, documented and injectable, portable across
clock configurations). -/
def systickInitOfClock (clockHz tickRateHz : ℕ) : List Ev :=
  [Ev.write SYST_RVR_ADDR (clockHz / tickRateHz - 1),
   Ev.write SYST_CVR_ADDR 0,
   Ev.write SYST_CSR_ADDR ((1 <<< 2) ||| (1 <<< 1) ||| (1 <<< 0))]

/-- The full MMIO trace of the initialisation phase of `main` (main.c
lines 160-163): `resets_init` then `gpio_init` then `systick_init`. -/
def initTrace (statuses : ℕ → ℕ) (fuel : ℕ) : List Ev :=
  (resets_init statuses fuel).1 ++ (gpio_init ++ systick_init)

/-- Whether an event writes the SIO output level: the OUT register at
`SIO_BASE + 0x010` or one of its SET / CLR / XOR aliases at
`+ 0x014` / `+ 0x018` / `+ 0x01C`. -/
def isOutLevelWrite (e : Ev) : Bool :=
  match e with
  | Ev.write a _ =>
    (a == SIO_BASE + 0x010) || (a == SIO_BASE + 0x014) ||
      (a == SIO_BASE + 0x018) || (a == SIO_BASE + 0x01C)
  | Ev.read _ _ => false

/-- Effect of a trace of MMIO events on the SIO GPIO output latch: a
write to OUT replaces it, a write to OUT_SET ors the mask in, a write to
OUT_CLR clears the mask bits, a write to OUT_XOR toggles the mask bits;
everything else leaves the latch unchanged. -/
def applyOutWrites (tr : List Ev) (out : ℕ) : ℕ :=
  tr.foldl
    (fun o e =>
      match e with
      | Ev.write a v =>
        if a = SIO_BASE + 0x010 then v % UINT32_MOD
        else if a = SIO_BASE + 0x014 then o ||| v
        else if a = SIO_BASE + 0x018 then o &&& ((UINT32_MOD - 1) ^^^ v)
        else if a = GPIO_OUT_XOR_ADDR then toggle_bits o v
        else o
      | Ev.read _ _ => o)
    out

/-! Theorems. -/

set_option maxRecDepth 100000

lemma default_handler_none : ∀ fuel, Default_Handler fuel = none := by
  intro fuel
  induction fuel with
  | zero => rfl
  | succ n ih => simpa [Default_Handler] using ih

lemma copyWords_outside (n : ℕ) : ∀ (m : Mem) (src dst a : ℕ),
    a < dst ∨ dst + n ≤ a → copyWords n m src dst a = m a := by
  induction n with
  | zero => intro m src dst a _; rfl
  | succ n ih =>
    intro m src dst a h
    show copyWords n (memWrite m dst (m src)) (src + 1) (dst + 1) a = m a
    rw [ih _ _ _ _ (by omega)]
    simp only [memWrite]
    rw [if_neg (by omega)]

lemma copyWords_inside (n : ℕ) : ∀ (m : Mem) (src dst w : ℕ),
    src + n ≤ dst ∨ dst + n ≤ src → w < n →
    copyWords n m src dst (dst + w) = m (src + w) := by
  induction n with
  | zero => intro m src dst w _ hw; omega
  | succ n ih =>
    intro m src dst w hdisj hw
    show copyWords n (memWrite m dst (m src)) (src + 1) (dst + 1) (dst + w)
      = m (src + w)
    cases w with
    | zero =>
      rw [copyWords_outside n _ _ _ _ (by omega)]
      simp [memWrite]
    | succ w =>
      have h1 : dst + (w + 1) = (dst + 1) + w := by omega
      rw [h1, ih _ _ _ _ (by omega) (by omega)]
      simp only [memWrite]
      rw [if_neg (by omega)]
      congr 1
      omega

lemma zeroWords_char (n : ℕ) : ∀ (m : Mem) (dst a : ℕ),
    zeroWords n m dst a = if dst ≤ a ∧ a < dst + n then 0 else m a := by
  induction n with
  | zero =>
    intro m dst a
    show m a = if dst ≤ a ∧ a < dst + 0 then 0 else m a
    rw [if_neg (by omega)]
  | succ n ih =>
    intro m dst a
    show zeroWords n (memWrite m dst 0) (dst + 1) a
      = if dst ≤ a ∧ a < dst + (n + 1) then 0 else m a
    rw [ih]
    by_cases h : a = dst
    · subst h
      rw [if_neg (by omega), if_pos (by omega)]
      simp [memWrite]
    · by_cases h2 : dst + 1 ≤ a ∧ a < dst + 1 + n
      · rw [if_pos h2, if_pos (by omega)]
      · rw [if_neg h2, if_neg (by omega)]
        simp [memWrite, h]

lemma read_trace_shift (f : ℕ → Ev) (n k : ℕ) :
    (List.range (n + 1)).map (fun j => f (k + j))
      = f k :: (List.range n).map (fun j => f (k + 1 + j)) := by
  rw [List.range_succ_eq_map, List.map_cons, List.map_map]
  have hfun : ((fun j => f (k + j)) ∘ Nat.succ) = fun j => f (k + 1 + j) := by
    funext j
    show f (k + Nat.succ j) = f (k + 1 + j)
    congr 1
    omega
  rw [hfun]
  norm_num

lemma pollLoop_found (mask : ℕ) (statuses : ℕ → ℕ) :
    ∀ (fuel k i : ℕ), i < fuel →
      statuses (k + i) &&& mask = mask →
      (∀ j, j < i → statuses (k + j) &&& mask ≠ mask) →
      pollLoop mask statuses k fuel =
        ((List.range (i + 1)).map
          (fun j => Ev.read RESETS_RESET_DONE_ADDR (statuses (k + j))), true) := by
  intro fuel
  induction fuel with
  | zero => intro k i hi _ _; omega
  | succ fuel ih =>
    intro k i hi hfound hmin
    cases i with
    | zero =>
      have h0 : statuses k &&& mask = mask := by simpa using hfound
      simp [pollLoop, h0, List.range_succ]
    | succ i =>
      have h0 : statuses k &&& mask ≠ mask := by simpa using hmin 0 (by omega)
      have hf : statuses ((k + 1) + i) &&& mask = mask := by
        have e : (k + 1) + i = k + (i + 1) := by omega
        rw [e]; exact hfound
      have hm : ∀ j, j < i → statuses ((k + 1) + j) &&& mask ≠ mask := by
        intro j hj
        have e : (k + 1) + j = k + (j + 1) := by omega
        rw [e]; exact hmin (j + 1) (by omega)
      have hrec := ih (k + 1) i (by omega) hf hm
      simp only [pollLoop, h0, if_false, ite_false, hrec]
      rw [read_trace_shift (fun j => Ev.read RESETS_RESET_DONE_ADDR (statuses j)) (i + 1) k]

lemma pollLoop_fail (mask : ℕ) (statuses : ℕ → ℕ) :
    ∀ (fuel k : ℕ), (∀ j, j < fuel → statuses (k + j) &&& mask ≠ mask) →
      (pollLoop mask statuses k fuel).2 = false := by
  intro fuel
  induction fuel with
  | zero => intro k _; rfl
  | succ fuel ih =>
    intro k h
    have h0 : statuses k &&& mask ≠ mask := by simpa using h 0 (by omega)
    have hrest : ∀ j, j < fuel → statuses ((k + 1) + j) &&& mask ≠ mask := by
      intro j hj
      have e : (k + 1) + j = k + (j + 1) := by omega
      rw [e]; exact h (j + 1) (by omega)
    simp only [pollLoop, h0, if_false, ite_false]
    exact ih (k + 1) hrest

lemma pollLoop_all_reads (mask : ℕ) (statuses : ℕ → ℕ) :
    ∀ fuel k, ∀ e ∈ (pollLoop mask statuses k fuel).1,
      ∃ v, e = Ev.read RESETS_RESET_DONE_ADDR v := by
  intro fuel
  induction fuel with
  | zero => intro k e he; simp [pollLoop] at he
  | succ fuel ih =>
    intro k e he
    by_cases h : statuses k &&& mask = mask
    · simp only [pollLoop, if_pos h, List.mem_singleton] at he
      exact ⟨_, he⟩
    · simp only [pollLoop, if_neg h, List.mem_cons] at he
      rcases he with h1 | h1
      · exact ⟨_, h1⟩
      · exact ih (k + 1) e h1

lemma filter_out_of_reads : ∀ tr : List Ev,
    (∀ e ∈ tr, ∃ v, e = Ev.read RESETS_RESET_DONE_ADDR v) →
    tr.filter isOutLevelWrite = [] := by
  intro tr
  induction tr with
  | nil => intro _; rfl
  | cons a l ih =>
    intro h
    obtain ⟨v, hv⟩ := h a (by simp)
    subst hv
    show (Ev.read RESETS_RESET_DONE_ADDR v :: l).filter isOutLevelWrite = []
    rw [List.filter_cons_of_neg (by simp [isOutLevelWrite])]
    exact ih (fun e he => h e (by simp [he]))

lemma applyOutWrites_of_reads : ∀ (tr : List Ev) (out : ℕ),
    (∀ e ∈ tr, ∃ v, e = Ev.read RESETS_RESET_DONE_ADDR v) →
    applyOutWrites tr out = out := by
  intro tr
  induction tr with
  | nil => intro out _; rfl
  | cons a l ih =>
    intro out h
    obtain ⟨v, hv⟩ := h a (by simp)
    subst hv
    show applyOutWrites l out = out
    exact ih out (fun e he => h e (by simp [he]))

lemma applyOutWrites_append (l1 l2 : List Ev) (o : ℕ) :
    applyOutWrites (l1 ++ l2) o = applyOutWrites l2 (applyOutWrites l1 o) := by
  simp [applyOutWrites]

/-- Claim C1: each invocation of `SysTick_Handler` increments the shared
tick counter by one (32-bit arithmetic) and toggles the output pin (one
write of `LED_MASK` to `GPIO_OUT_XOR`) exactly when the counter after the
increment is a multiple of 500; starting from counter 0, after 500
firings the pin has toggled exactly once, after 999 firings exactly once,
and after 1000 firings exactly twice. -/
theorem systick_handler_toggle_cadence :
    (∀ s : SioState,
        (SysTick_Handler s).1.tickCount = (s.tickCount + 1) % UINT32_MOD ∧
        (SysTick_Handler s).1.gpioOut =
          (if ((s.tickCount + 1) % UINT32_MOD) % 500 = 0 then
            toggle_bits s.gpioOut LED_MASK
          else s.gpioOut) ∧
        ((SysTick_Handler s).2 = [Ev.write GPIO_OUT_XOR_ADDR LED_MASK] ↔
          ((s.tickCount + 1) % UINT32_MOD) % 500 = 0)) ∧
    pinToggles 500 ⟨0, 0⟩ = 1 ∧
    pinToggles 999 ⟨0, 0⟩ = 1 ∧
    pinToggles 1000 ⟨0, 0⟩ = 2 := by
  refine ⟨fun s => ?_, by decide, by decide, by decide⟩
  unfold SysTick_Handler
  by_cases h : ((s.tickCount + 1) % UINT32_MOD) % 500 = 0 <;> simp [h]

/-- Claim C2: after the `.data` copy loop of `Reset_Handler`, each word
of the initialized-data region equals the word at the corresponding
offset of the flash source image, provided the source and target regions
do not overlap. -/
theorem reset_handler_data_copy (m : Mem) (dataFlash dataStart dataEnd : ℕ)
    (hdisj : dataFlash + (dataEnd - dataStart) ≤ dataStart ∨ dataEnd ≤ dataFlash)
    (w : ℕ) (hw : w < dataEnd - dataStart) :
    dataCopy m dataFlash dataStart dataEnd (dataStart + w) = m (dataFlash + w) := by
  unfold dataCopy
  exact copyWords_inside _ _ _ _ _ (by omega) hw

/-- Witness for C2: copying 3 words from flash address 0 to RAM address
10 over the identity memory puts the old word 1 at address 11. -/
theorem reset_handler_data_copy_witness :
    dataCopy (fun a => a) 0 10 13 11 = 1 :=
  reset_handler_data_copy (fun a => a) 0 10 13 (Or.inl (by norm_num)) 1 (by norm_num)

/-- Claim C3: after the `.bss` zero loop of `Reset_Handler`, every word
of the uninitialized-data region is zero whatever the memory held before,
and running the zero loop a second time leaves the memory unchanged
(pointwise idempotence). -/
theorem reset_handler_bss_zero :
    (∀ (m : Mem) (bssStart bssEnd w : ℕ), w < bssEnd - bssStart →
        bssZero m bssStart bssEnd (bssStart + w) = 0) ∧
    (∀ (m : Mem) (bssStart bssEnd a : ℕ),
        bssZero (bssZero m bssStart bssEnd) bssStart bssEnd a =
          bssZero m bssStart bssEnd a) := by
  constructor
  · intro m s e w hw
    unfold bssZero
    rw [zeroWords_char, if_pos (by omega)]
  · intro m s e a
    unfold bssZero
    simp only [zeroWords_char]
    by_cases h : s ≤ a ∧ a < s + (e - s) <;> simp [h]

/-- Witness for C3: zeroing words 5..7 of the constant-3 memory makes
word 6 zero, and re-running the zero fill changes nothing at word 6. -/
theorem reset_handler_bss_zero_witness :
    bssZero (fun _ => 3) 5 8 6 = 0 ∧
    bssZero (bssZero (fun _ => 3) 5 8) 5 8 6 = bssZero (fun _ => 3) 5 8 6 :=
  ⟨reset_handler_bss_zero.1 (fun _ => 3) 5 8 1 (by norm_num),
   reset_handler_bss_zero.2 (fun _ => 3) 5 8 6⟩

/-- Claim C4: the vector table has 42 slots; slot 0 is the initial stack
pointer value; every other slot holds the resolved address of the
handler name the architecture/vendor numbering assigns to that slot, and
holds the zero placeholder exactly for the slots with no handler on this
core (assuming resolved handler addresses are nonzero). -/
theorem vector_table_layout (sp : ℕ) (addr : HName → ℕ)
    (h : ∀ n, addr n ≠ 0) :
    (vector_table sp addr).length = 42 ∧
    (vector_table sp addr).getD 0 0 = sp ∧
    ∀ k, 1 ≤ k → k < 42 →
      (vector_table sp addr).getD k 0 = (slotAssignment k).elim 0 addr ∧
      ((vector_table sp addr).getD k 0 = 0 ↔ slotAssignment k = none) := by
  refine ⟨rfl, rfl, fun k h1 h2 => ?_⟩
  interval_cases k <;>
    exact ⟨rfl, by
      first
      | exact Iff.intro (fun _ => rfl) (fun _ => rfl)
      | exact Iff.intro (fun h0 => absurd h0 (h _)) (fun hn => nomatch hn)⟩

/-- Witness for C4: with stack pointer 1000 and all handlers resolved to
address 256, slot 15 (SysTick) holds 256 and slot 4 (reserved) holds 0. -/
theorem vector_table_layout_witness :
    (vector_table 1000 (fun _ => 256)).getD 15 0 = 256 ∧
    (vector_table 1000 (fun _ => 256)).getD 4 0 = 0 := by
  have h := vector_table_layout 1000 (fun _ => 256) (fun n => by norm_num)
  exact ⟨by simpa [slotAssignment] using (h.2.2 15 (by norm_num) (by norm_num)).1,
    by simpa [slotAssignment] using (h.2.2 4 (by norm_num) (by norm_num)).1⟩

/-- Claim C5: for every block bitmask, `release_from_reset` (the shape of
`resets_init`) first emits the single write of the mask to the
atomic-clear alias, then polls the done register exactly once per
iteration up to and including the first read satisfying
`status &&& mask = mask`, returning there and polling no further; while
every read fails the test it does not return; and `resets_init` is this
operation applied to `RESET_IO_BANK0 ||| RESET_PADS_BANK0`. -/
theorem resets_release_poll (mask : ℕ) (statuses : ℕ → ℕ) (fuel : ℕ) :
    (∀ i, i < fuel → statuses i &&& mask = mask →
        (∀ j, j < i → statuses j &&& mask ≠ mask) →
        release_from_reset mask statuses fuel =
          (Ev.write RESETS_RESET_CLR_ADDR mask ::
            (List.range (i + 1)).map
              (fun j => Ev.read RESETS_RESET_DONE_ADDR (statuses j)), true)) ∧
    ((∀ j, j < fuel → statuses j &&& mask ≠ mask) →
        (release_from_reset mask statuses fuel).2 = false) ∧
    resets_init statuses fuel
      = release_from_reset (RESET_IO_BANK0 ||| RESET_PADS_BANK0) statuses fuel := by
  refine ⟨fun i hi hf hmin => ?_, fun hall => ?_, rfl⟩
  · unfold release_from_reset
    rw [pollLoop_found mask statuses fuel 0 i hi (by simpa using hf)
      (fun j hj => by simpa using hmin j hj)]
    simp
  · unfold release_from_reset
    exact pollLoop_fail mask statuses fuel 0 (fun j hj => by simpa using hall j hj)

/-- Witness for C5: with the done register reading 0 twice and then 288,
the release of mask 288 writes the clear alias once, polls three times,
and returns. -/
theorem resets_release_poll_witness :
    release_from_reset 288 (fun i => if i < 2 then 0 else 288) 5 =
      (Ev.write RESETS_RESET_CLR_ADDR 288 ::
        (List.range 3).map
          (fun j => Ev.read RESETS_RESET_DONE_ADDR
            ((fun i => if i < 2 then 0 else 288) j)), true) :=
  (resets_release_poll 288 (fun i => if i < 2 then 0 else 288) 5).1 2
    (by norm_num) (by decide) (by decide)

/-- Claim C6: a handler name the application leaves unbound resolves,
for any slot the architecture assigns it to, to `Default_Handler`, and
`Default_Handler` never returns: for every fuel the loop produces no
exit value. -/
theorem unbound_handler_hangs :
    ∀ (ov : HName → Option (ℕ → Option Unit)) (k : ℕ) (n : HName),
      slotAssignment k = some n → ov n = none →
      resolveHandler ov n = Default_Handler ∧
        ∀ fuel, resolveHandler ov n fuel = none := by
  intro ov k n _ hov
  constructor
  · unfold resolveHandler
    rw [hov]
    rfl
  · intro fuel
    unfold resolveHandler
    rw [hov]
    exact default_handler_none fuel

/-- Witness for C6: with no overrides at all, the NMI slot (slot 2) runs
the default handler, which has not returned after 7 steps. -/
theorem unbound_handler_hangs_witness :
    resolveHandler (fun _ => none) HName.nmi 7 = none :=
  (unbound_handler_hangs (fun _ => none) 2 HName.nmi (by decide) rfl).2 7

/-- Counterexample for C7: the reload divisor of `systick_init` is
hard-wired, not injectable: at a 12 MHz clock and 1 kHz tick rate the
source still writes reload 5999 where the spec formula requires 11999. -/
theorem systick_divisor_not_injectable :
    systick_init ≠ systickInitOfClock 12000000 1000 := by decide

/-- Claim C7 (amended): `systick_init` writes the hard-wired reload value
5999 — which equals the documented example 6,000,000 Hz / 1,000 Hz − 1 —
then resets the current-count register, and only then sets the
clock-source, interrupt-on-zero and enable bits (value 7). -/
theorem systick_init_registers :
    systick_init =
      [Ev.write SYST_RVR_ADDR 5999,
       Ev.write SYST_CVR_ADDR 0,
       Ev.write SYST_CSR_ADDR 7] ∧
    systick_init = systickInitOfClock 6000000 1000 ∧
    6000000 / 1000 - 1 = 5999 ∧
    (7 : ℕ) = (1 <<< 2) ||| (1 <<< 1) ||| (1 <<< 0) := by
  refine ⟨by decide, by decide, by norm_num, by decide⟩

/-- Claim C8: one write to the `GPIO_OUT_XOR` register XORs the mask into
the output latch, and doing it twice with the same mask restores the
original output state, for every state and mask. -/
theorem toggle_bits_involutive :
    ∀ out mask : ℕ, toggle_bits (toggle_bits out mask) mask = out := by
  intro out mask
  simp [toggle_bits, Nat.xor_assoc]

/-- Claim C9: `tick_count` wraps modulo 2^32 and 2^32 mod 500 = 296, so
the firing that wraps the counter from 4294967295 to 0 toggles the pin,
only 296 firings after the toggle at counter 4294967000 (and not 500):
295 firings from 4294967000 produce no toggle, the 296th produces one. -/
theorem tick_count_wraparound :
    UINT32_MOD % 500 = 296 ∧
    (∀ out : ℕ,
      SysTick_Handler ⟨UINT32_MOD - 1, out⟩ =
        (⟨0, toggle_bits out LED_MASK⟩, [Ev.write GPIO_OUT_XOR_ADDR LED_MASK])) ∧
    (4294967000 : ℕ) % 500 = 0 ∧
    pinToggles 295 ⟨4294967000, 0⟩ = 0 ∧
    pinToggles 296 ⟨4294967000, 0⟩ = 1 := by
  refine ⟨by decide, fun out => ?_, by decide, by decide, by decide⟩
  unfold SysTick_Handler
  norm_num [UINT32_MOD]

/-- Claim C10: `gpio_init` writes the function selector, then output
enable, then exactly one toggle of the LED pin; across the whole
initialisation trace of `main` that toggle is the only write to the SIO
output level (for any poll outcome of `resets_init`), so the output
latch, starting from its post-reset value 0, has been flipped once, to
`LED_MASK`, before the first timer firing. -/
theorem gpio_init_single_toggle :
    ∀ (statuses : ℕ → ℕ) (fuel : ℕ),
      gpio_init =
        [Ev.write GPIO25_CTRL_ADDR FUNCSEL_SIO_VALUE,
         Ev.write GPIO_OE_SET_ADDR LED_MASK,
         Ev.write GPIO_OUT_XOR_ADDR LED_MASK] ∧
      (initTrace statuses fuel).filter isOutLevelWrite =
        [Ev.write GPIO_OUT_XOR_ADDR LED_MASK] ∧
      applyOutWrites (initTrace statuses fuel) 0 = LED_MASK := by
  intro statuses fuel
  have e1 : initTrace statuses fuel =
      Ev.write RESETS_RESET_CLR_ADDR (RESET_IO_BANK0 ||| RESET_PADS_BANK0) ::
        ((pollLoop (RESET_IO_BANK0 ||| RESET_PADS_BANK0) statuses 0 fuel).1 ++
          (gpio_init ++ systick_init)) := rfl
  refine ⟨rfl, ?_, ?_⟩
  · rw [e1, List.filter_cons_of_neg (by decide), List.filter_append,
      filter_out_of_reads _ (pollLoop_all_reads _ _ fuel 0)]
    decide
  · rw [e1]
    show applyOutWrites
      ((pollLoop (RESET_IO_BANK0 ||| RESET_PADS_BANK0) statuses 0 fuel).1 ++
        (gpio_init ++ systick_init)) 0 = LED_MASK
    rw [applyOutWrites_append,
      applyOutWrites_of_reads _ 0 (pollLoop_all_reads _ _ fuel 0)]
    decide

end PicoBaremetal
